import Mathlib

/-!
Shallow embedding of `src/application.py` (Church Song App): a JSON-backed
song catalog with a storage adapter (`load_songs` / `save_songs`), a GUI
editor (search, add/edit dialog, import) and a batch CLI (`run_cli`).

Modelling conventions:
* JSON values are an inductive `Json`; JSON numbers are modelled as integers
  (no claim depends on floating-point numbers).
* The backing file is modelled by `FileState`: absent, unreadable (open or
  `json.load` raises), or storing a parsed JSON value.  `json.dump` followed
  by `json.load` is the identity on such values, so persistence is modelled
  at the JSON-value level.
* Python strings are Lean `String`s; the Python operations used by the code
  (`strip`, `lower`, `splitlines`, `split(sep, 1)`, substring `in`, `int()`)
  are implemented below over `List Char`, faithful to Python for the
  character ranges the program manipulates.
* `messagebox` / `print` output is collected into lists of strings; an
  `ioFail` flag models whether a write raises inside `save_songs`.
-/

/-- JSON values as parsed by Python `json.load` (numbers as integers). -/
inductive Json where
  | null : Json
  | bool (b : Bool) : Json
  | num (n : Int) : Json
  | str (s : String) : Json
  | arr (items : List Json) : Json
  | obj (fields : List (String × Json)) : Json

/-- Python truthiness of a JSON-decoded value (`bool(x)`). -/
def truthy : Json → Bool
  | .null => false
  | .bool b => b
  | .num n => n != 0
  | .str s => s != ""
  | .arr items => !items.isEmpty
  | .obj fields => !fields.isEmpty

/-- `d.get(k)` on a JSON object: last binding wins (as in `json.load`),
missing key gives Python `None` (i.e. `Json.null`). -/
def pyGet (fields : List (String × Json)) (k : String) : Json :=
  match (fields.reverse.find? (fun p => p.1 == k)) with
  | some p => p.2
  | none => .null

/-- Python `a or b`: `a` if truthy, else `b`. -/
def pyOr (a b : Json) : Json := if truthy a then a else b

mutual

/-- Python `repr` of a JSON-decoded value (string escaping not modelled:
strings are shown between plain quote characters). -/
def pyRepr : Json → String
  | .null => "None"
  | .bool true => "True"
  | .bool false => "False"
  | .num n => toString n
  | .str s => "\x27" ++ s ++ "\x27"
  | .arr items => "[" ++ pyReprItems items ++ "]"
  | .obj fields => "\x7b" ++ pyReprFields fields ++ "\x7d"

/-- Comma-joined `repr`s of list items. -/
def pyReprItems : List Json → String
  | [] => ""
  | [x] => pyRepr x
  | x :: (y :: rest) => pyRepr x ++ ", " ++ pyReprItems (y :: rest)

/-- Comma-joined `repr`s of dict fields. -/
def pyReprFields : List (String × Json) → String
  | [] => ""
  | [(k, v)] => "\x27" ++ k ++ "\x27: " ++ pyRepr v
  | (k, v) :: (p :: rest) => "\x27" ++ k ++ "\x27: " ++ pyRepr v ++ ", " ++ pyReprFields (p :: rest)

end

/-- Python `str(x)` of a JSON-decoded value. -/
def pyStr : Json → String
  | .null => "None"
  | .bool true => "True"
  | .bool false => "False"
  | .num n => toString n
  | .str s => s
  | .arr items => pyRepr (.arr items)
  | .obj fields => pyRepr (.obj fields)

/-- Characters Python `str.strip()` removes (ASCII whitespace). -/
def isPySpace (c : Char) : Bool :=
  c == ' ' || c == '\t' || c == '\n' || c == '\r' || c == '\x0b' || c == '\x0c'

/-- Remove trailing whitespace (Python `rstrip`). -/
def rstripL : List Char → List Char
  | [] => []
  | c :: rest =>
    let r := rstripL rest
    if r.isEmpty then (if isPySpace c then [] else [c]) else c :: r

/-- Python `str.strip()` over the character list. -/
def stripL (cs : List Char) : List Char :=
  (rstripL cs).dropWhile isPySpace

/-- Python `str.lower()` over the character list (ASCII case folding). -/
def lowerL (cs : List Char) : List Char := cs.map Char.toLower

/-- `needle` begins `hay`. -/
def startsWithL : List Char → List Char → Bool
  | [], _ => true
  | _ :: _, [] => false
  | a :: as, b :: bs => a == b && startsWithL as bs

/-- Python `needle in hay` for strings as character lists. -/
def containsSub (needle : List Char) : List Char → Bool
  | [] => startsWithL needle []
  | c :: rest => startsWithL needle (c :: rest) || containsSub needle rest

/-- Python `s.split(sep, 1)` when `sep` occurs: the parts around the first
occurrence; `none` when `sep` does not occur. -/
def splitOnceL (sep : List Char) : List Char → Option (List Char × List Char)
  | [] => none
  | c :: rest =>
    if startsWithL sep (c :: rest) then some ([], (c :: rest).drop sep.length)
    else (splitOnceL sep rest).map (fun p => (c :: p.1, p.2))

/-- Python `str.splitlines()` (line ends modelled: LF, CRLF, CR). -/
def splitLinesL : List Char → List (List Char)
  | [] => []
  | '\r' :: '\n' :: rest => [] :: splitLinesL rest
  | '\n' :: rest => [] :: splitLinesL rest
  | '\r' :: rest => [] :: splitLinesL rest
  | c :: rest =>
    match splitLinesL rest with
    | [] => [[c]]
    | l :: ls => (c :: l) :: ls

/-- Python `s.strip()` on `String`. -/
def pyStripS (s : String) : String := String.mk (stripL s.data)

/-- Python `s.lower()` on `String`. -/
def lowerS (s : String) : String := String.mk (lowerL s.data)

/-- Python `needle in hay` on `String`. -/
def containsS (hay needle : String) : Bool := containsSub needle.data hay.data

/-- Digits of a Python integer literal, allowing single underscores between
digits (`int("1_0") = 10`). -/
def parseDigitsGo (acc : Nat) : List Char → Option Nat
  | [] => some acc
  | '_' :: c :: rest =>
    if c.isDigit then parseDigitsGo (acc * 10 + (c.toNat - 48)) rest else none
  | ['_'] => none
  | c :: rest =>
    if c.isDigit then parseDigitsGo (acc * 10 + (c.toNat - 48)) rest else none

/-- Nonempty digit run (with underscores) to its value. -/
def parseDigits : List Char → Option Nat
  | [] => none
  | c :: rest =>
    if c.isDigit then parseDigitsGo (c.toNat - 48) rest else none

/-- Python `int(s)`: optional surrounding whitespace, optional sign,
decimal digits with optional single underscores; `none` when `int` raises
`ValueError`. -/
def pyParseInt (s : String) : Option Int :=
  match stripL s.data with
  | '+' :: rest => (parseDigits rest).map (fun n => (n : Int))
  | '-' :: rest => (parseDigits rest).map (fun n => -(n : Int))
  | cs => (parseDigits cs).map (fun n => (n : Int))

/-- A song record: the dict `\x7b"title": t, "number": n\x7d` with string values. -/
structure Song where
  title : String
  number : String
deriving DecidableEq, Repr

/-- The JSON object `save_songs` writes for one song. -/
def songToJson (s : Song) : Json :=
  .obj [("title", .str s.title), ("number", .str s.number)]

/-- Normalization of one list entry inside `load_songs`: a dict is read via
`item.get("title") or item.get("name") or ""` and
`item.get("number") or item.get("num") or ""`, both passed to `str`; a plain
string becomes a title with empty number; anything else is skipped. -/
def normalizeItem : Json → Option Song
  | .obj fields =>
    some ⟨pyStr (pyOr (pyGet fields ("title")) (pyOr (pyGet fields ("name")) (.str ""))),
          pyStr (pyOr (pyGet fields ("number")) (pyOr (pyGet fields ("num")) (.str "")))⟩
  | .str s => some ⟨s, ""⟩
  | _ => none

/-- The normalization loop of `load_songs` on parsed JSON data: a list is
normalized entrywise, any other top-level shape yields `[]`. -/
def load_songs_data : Json → List Song
  | .arr items => items.filterMap normalizeItem
  | _ => []

/-- State of the backing file `songs.json`. -/
inductive FileState where
  | absent : FileState
  | unreadable : FileState
  | stored (j : Json) : FileState

/-- Result of `load_songs`: the catalog, the file state afterwards, and the
error dialogs shown. -/
structure LoadResult where
  songs : List Song
  fs : FileState
  errors : List String

/-- `load_songs()`: a missing file is created containing `[]`; an unreadable
or unparsable file is reported and yields an empty catalog; otherwise the
parsed data is normalized. -/
def load_songs : FileState → LoadResult
  | .absent => ⟨[], .stored (.arr []), []⟩
  | .unreadable => ⟨[], .unreadable, ["Failed to load songs.json"]⟩
  | .stored j => ⟨load_songs_data j, .stored j, []⟩

/-- `save_songs(songs)`: serializes the catalog over the backing file; on an
I/O failure (modelled by `ioFail`) an error dialog is shown and the function
returns normally. -/
def save_songs (ioFail : Bool) (songs : List Song) (fs : FileState) :
    FileState × List String :=
  if ioFail then (fs, ["Failed to save songs.json"])
  else (.stored (.arr (songs.map songToJson)), [])

/-- `AddEditDialog.apply`: both entries are stripped; an empty stripped
title is rejected (`self.result = None`), otherwise the result is the new
record. -/
def applyDialog (titleInput numberInput : String) : Option Song :=
  let t := pyStripS titleInput
  let n := pyStripS numberInput
  if t = "" then none else some ⟨t, n⟩

/-- `SongApp._on_search`: the query is lowercased then stripped; an empty
result shows the whole catalog, otherwise the songs whose lowercased title
or number contains it. -/
def computeFiltered (q : String) (songs : List Song) : List Song :=
  let qn := pyStripS (lowerS q)
  if qn = "" then songs
  else songs.filter (fun s => containsS (lowerS s.title) qn || containsS (lowerS s.number) qn)

/-- In-memory state of the GUI (`SongApp`): catalog, filtered view, current
search query, and the backing file. -/
structure AppState where
  songs : List Song
  filtered : List Song
  query : String
  fs : FileState

/-- A GUI event handler result: the new state and the dialogs shown. -/
structure AppStep where
  st : AppState
  msgs : List String

/-- `SongApp._on_add`: a dialog result (if any) is appended, the filtered
view recomputed, and the catalog autosaved. -/
def onAdd (ioFail : Bool) (dlgResult : Option Song) (st : AppState) : AppStep :=
  match dlgResult with
  | none => ⟨st, []⟩
  | some s =>
    let songs1 := st.songs ++ [s]
    let saved := save_songs ioFail songs1 st.fs
    ⟨⟨songs1, computeFiltered st.query songs1, st.query, saved.1⟩, saved.2⟩

/-- One line of `SongApp._on_import`: the line is stripped; an empty result
is skipped; a stripped line containing `" - "` is split at the first
occurrence into stripped title and number; otherwise the stripped line is
the title. -/
def parseImportLine (line : List Char) : Option Song :=
  let l := stripL line
  if l = [] then none
  else
    match splitOnceL [' ', '-', ' '] l with
    | some p => some ⟨String.mk (stripL p.1), String.mk (stripL p.2)⟩
    | none => some ⟨String.mk l, ""⟩

/-- The records built by the loop of `SongApp._on_import` over the pasted
text. -/
def parseImport (text : String) : List Song :=
  (splitLinesL text.data).filterMap parseImportLine

/-- `SongApp._on_import`: a cancelled or empty dialog is a no-op; otherwise
the parsed records are appended, the filtered view recomputed, the catalog
autosaved, and the imported count reported. -/
def onImport (ioFail : Bool) (text : Option String) (st : AppState) : AppStep :=
  match text with
  | none => ⟨st, []⟩
  | some t =>
    if t = "" then ⟨st, []⟩
    else
      let new := parseImport t
      let songs1 := st.songs ++ new
      let saved := save_songs ioFail songs1 st.fs
      ⟨⟨songs1, computeFiltered st.query songs1, st.query, saved.1⟩,
        saved.2 ++ ["Imported " ++ toString new.length ++ " songs"]⟩

/-- One line printed by the `--list` branch of `run_cli`:
`f"\x7bi\x7d: \x7btitle\x7d \x7b(\x27- \x27 + number) if number else \x27\x27\x7d"`. -/
def formatCliLine (i : Nat) (s : Song) : String :=
  toString i ++ ": " ++ s.title ++ " " ++ (if s.number != "" then "- " ++ s.number else "")

/-- Result of one `run_cli` invocation: final catalog, file state, stdout
lines, and error dialogs from the storage adapter. -/
structure CliResult where
  songs : List Song
  fs : FileState
  printed : List String
  dialogs : List String

/-- The usage text printed by `run_cli` with no arguments. -/
def cliUsage : String :=
  "Church Song App - CLI Usage: --list, --add, --remove"

/-- `run_cli()`: loads the catalog, then dispatches on the arguments after
`--cli`: usage, `--list`, `--add <title> [number]`, `--remove <index>`, or
an unknown-command message. -/
def run_cli (ioFail : Bool) (args : List String) (fs : FileState) : CliResult :=
  let lr := load_songs fs
  let songs := lr.songs
  match args with
  | [] => ⟨songs, lr.fs, [cliUsage], lr.errors⟩
  | a0 :: rest =>
    if a0 = "--list" then
      ⟨songs, lr.fs, songs.enum.map (fun p => formatCliLine p.1 p.2), lr.errors⟩
    else if a0 = "--add" ∧ 1 ≤ rest.length then
      let title := rest.headD ("")
      let number := if 2 ≤ rest.length then rest.getD 1 ("") else ""
      let songs1 := songs ++ [⟨title, number⟩]
      let saved := save_songs ioFail songs1 lr.fs
      ⟨songs1, saved.1, ["Added: " ++ title], lr.errors ++ saved.2⟩
    else if a0 = "--remove" ∧ rest.length = 1 then
      match pyParseInt (rest.headD ("")) with
      | none => ⟨songs, lr.fs, ["Invalid index"], lr.errors⟩
      | some idx =>
        if 0 ≤ idx ∧ idx < (songs.length : Int) then
          let removed := songs.getD idx.toNat ⟨"", ""⟩
          let songs1 := songs.eraseIdx idx.toNat
          let saved := save_songs ioFail songs1 lr.fs
          ⟨songs1, saved.1, ["Removed: " ++ removed.title], lr.errors ++ saved.2⟩
        else ⟨songs, lr.fs, ["Index out of range"], lr.errors⟩
    else ⟨songs, lr.fs, ["Unknown CLI command"], lr.errors⟩

/-- Claim reading of the load fallback in which a *present* `title` (resp.
`number`) field is always used, with `name` (resp. `num`) used only when the
primary key is absent, both coerced to strings, defaulting to `""`. -/
def presenceFallback (fields : List (String × Json)) (k1 k2 : String) : String :=
  match fields.reverse.find? (fun p => p.1 == k1) with
  | some p => pyStr p.2
  | none =>
    match fields.reverse.find? (fun p => p.1 == k2) with
    | some p => pyStr p.2
    | none => ""

/-- Entry normalization under the presence-based reading of the claim. -/
def origNormC2 : Json → Option Song
  | .obj fields =>
    some ⟨presenceFallback fields ("title") ("name"),
          presenceFallback fields ("number") ("num")⟩
  | .str s => some ⟨s, ""⟩
  | _ => none

/-- Catalog produced by `load` under the presence-based reading. -/
def origLoadC2 : Json → List Song
  | .arr items => items.filterMap origNormC2
  | _ => []

/-- Amended reading: the fallback fires whenever the primary value is falsy
under Python truthiness (absent, null, false, zero, empty string or empty
container), the chosen value is coerced with `str`, and the default is the
empty string. -/
def truthyFallback (primary fallback : Json) : String :=
  if truthy primary then pyStr primary
  else if truthy fallback then pyStr fallback
  else ""

/-- Entry normalization under the amended (truthiness-based) reading. -/
def specNormC2 : Json → Option Song
  | .obj fields =>
    some ⟨truthyFallback (pyGet fields ("title")) (pyGet fields ("name")),
          truthyFallback (pyGet fields ("number")) (pyGet fields ("num"))⟩
  | .str s => some ⟨s, ""⟩
  | _ => none

/-- Catalog described by the amended claim: mapping entries normalized with
truthiness fallback, strings promoted to titles, other entries dropped, a
non-list top level giving an empty catalog. -/
def specLoadC2 : Json → List Song
  | .arr items => items.filterMap specNormC2
  | _ => []

/-- The claim-literal search: matching against the raw query (only
lowercased), with the full catalog on the exactly-empty query. -/
def origFilterC4 (q : String) (songs : List Song) : List Song :=
  if q = "" then songs
  else songs.filter (fun s =>
    containsS (lowerS s.title) (lowerS q) || containsS (lowerS s.number) (lowerS q))

/-- The amended search result: the subsequence of the catalog whose
lowercased title or number contains the lowercased, whitespace-trimmed
query. -/
def specFilterC4 (q : String) (songs : List Song) : List Song :=
  songs.filter (fun s =>
    containsS (lowerS s.title) (pyStripS (lowerS q)) ||
    containsS (lowerS s.number) (pyStripS (lowerS q)))

/-- The claim-literal import parse of one line: the separator test and the
split are performed on the raw line, the parts then trimmed. -/
def origLineC5 (line : List Char) : Option Song :=
  if stripL line = [] then none
  else if containsSub [' ', '-', ' '] line then
    match splitOnceL [' ', '-', ' '] line with
    | some p => some ⟨String.mk (stripL p.1), String.mk (stripL p.2)⟩
    | none => none
  else some ⟨String.mk (stripL line), ""⟩

/-- The amended import parse of one line: a blank line is skipped; a line
whose trimmed form contains `" - "` is split at the first occurrence in the
trimmed form; otherwise the trimmed line is the title. -/
def specLineC5 (line : List Char) : Option Song :=
  let l := stripL line
  if l = [] then none
  else if containsSub [' ', '-', ' '] l then
    match splitOnceL [' ', '-', ' '] l with
    | some p => some ⟨String.mk (stripL p.1), String.mk (stripL p.2)⟩
    | none => some ⟨String.mk l, ""⟩
  else some ⟨String.mk l, ""⟩

/-- The records the amended claim predicts for an import text. -/
def specImportC5 (text : String) : List Song :=
  (splitLinesL text.data).filterMap specLineC5

/-- `remove <index>` as the claim describes it, acting on a catalog whose
backing file stores exactly its serialization. -/
def specRemoveC6 (arg : String) (songs : List Song) : CliResult :=
  match pyParseInt arg with
  | some idx =>
    if 0 ≤ idx ∧ idx < (songs.length : Int) then
      ⟨songs.eraseIdx idx.toNat,
       .stored (.arr ((songs.eraseIdx idx.toNat).map songToJson)),
       ["Removed: " ++ (songs.getD idx.toNat ⟨"", ""⟩).title], []⟩
    else ⟨songs, .stored (.arr (songs.map songToJson)), ["Index out of range"], []⟩
  | none => ⟨songs, .stored (.arr (songs.map songToJson)), ["Invalid index"], []⟩

/-- The list line under the amended claim: `index: title - number` for a
nonempty number, and `index: title ` (with a trailing space) otherwise. -/
def specFormatC9 (i : Nat) (s : Song) : String :=
  if s.number = "" then toString i ++ ": " ++ s.title ++ " "
  else toString i ++ ": " ++ s.title ++ " - " ++ s.number

/-- Shapes of list entries that `load_songs` keeps. -/
def jsonRecognized : Json → Bool
  | .obj _ => true
  | .str _ => true
  | _ => false

/-- The record a kept entry is normalized to. -/
def forceNorm (j : Json) : Song := (normalizeItem j).getD ⟨"", ""⟩

theorem dropWhile_head_false {α : Type} {p : α → Bool} :
    ∀ {l : List α} {c : α} {t : List α}, l.dropWhile p = c :: t → p c = false := by
  intro l
  induction l with
  | nil => intro c t h; simp at h
  | cons x xs ih =>
    intro c t h
    rw [List.dropWhile_cons] at h
    by_cases hp : p x
    · simp [hp] at h
      exact ih h
    · simp [hp] at h
      rw [← h.1]
      simpa using hp

theorem dropWhile_of_head_false {α : Type} {p : α → Bool} {c : α} {t : List α}
    (h : p c = false) : (c :: t).dropWhile p = c :: t := by
  rw [List.dropWhile_cons, h]
  simp

theorem dropWhile_getLast? {α : Type} {p : α → Bool} :
    ∀ {l : List α}, l.dropWhile p ≠ [] → (l.dropWhile p).getLast? = l.getLast? := by
  intro l
  induction l with
  | nil => intro h; simp at h
  | cons x xs ih =>
    intro h
    by_cases hp : p x = true
    · rw [List.dropWhile_cons, if_pos hp] at h
      rw [List.dropWhile_cons, if_pos hp]
      have hxs : xs ≠ [] := by
        intro hx; rw [hx] at h; simp at h
      rw [ih h]
      obtain ⟨y, ys, hy⟩ := List.exists_cons_of_ne_nil hxs
      subst hy
      rw [List.getLast?_cons_cons]
    · simp [hp]

theorem rstripL_getLast? :
    ∀ {l : List Char} {c : Char}, (rstripL l).getLast? = some c → isPySpace c = false := by
  intro l
  induction l with
  | nil => intro c h; simp [rstripL] at h
  | cons x xs ih =>
    intro c h
    rcases hr : rstripL xs with _ | ⟨y, ys⟩
    · have hstep : rstripL (x :: xs) = if isPySpace x = true then [] else [x] := by
        rw [rstripL, hr]; simp
      rw [hstep] at h
      by_cases hp : isPySpace x = true
      · rw [if_pos hp] at h; simp at h
      · rw [if_neg hp] at h
        simp only [List.getLast?_singleton, Option.some.injEq] at h
        rw [← h]
        simpa using hp
    · have hstep : rstripL (x :: xs) = x :: y :: ys := by
        rw [rstripL, hr]; simp
      rw [hstep, List.getLast?_cons_cons] at h
      apply ih
      rw [hr]
      exact h

theorem rstripL_eq_self :
    ∀ {l : List Char}, (∀ c, l.getLast? = some c → isPySpace c = false) → rstripL l = l := by
  intro l
  induction l with
  | nil => intro _; rfl
  | cons x xs ih =>
    intro h
    rcases hxs : xs with _ | ⟨y, ys⟩
    · subst hxs
      have hx : isPySpace x = false := h x (by simp)
      simp [rstripL, hx]
    · subst hxs
      have hrest : rstripL (y :: ys) = y :: ys := by
        apply ih
        intro c hc
        apply h
        rw [List.getLast?_cons_cons]
        exact hc
      rw [rstripL, hrest]
      simp

theorem stripL_head {l : List Char} {c : Char} {t : List Char}
    (h : stripL l = c :: t) : isPySpace c = false :=
  dropWhile_head_false h

theorem stripL_getLast? {l : List Char} {c : Char}
    (h : (stripL l).getLast? = some c) : isPySpace c = false := by
  have hne : stripL l ≠ [] := by
    intro hx; rw [hx] at h; simp at h
  rw [stripL] at h hne
  rw [dropWhile_getLast? hne] at h
  exact rstripL_getLast? h

theorem stripL_idem (l : List Char) : stripL (stripL l) = stripL l := by
  have h1 : rstripL (stripL l) = stripL l :=
    rstripL_eq_self (fun c hc => stripL_getLast? hc)
  rw [stripL, h1]
  rcases hs : stripL l with _ | ⟨c, t⟩
  · rfl
  · exact dropWhile_of_head_false (stripL_head hs)

theorem pyStripS_idem (s : String) : pyStripS (pyStripS s) = pyStripS s := by
  simp [pyStripS, stripL_idem]

theorem rstripL_cons_head {c : Char} {l : List Char} (h : isPySpace c = false) :
    ∃ t, rstripL (c :: l) = c :: t := by
  rw [rstripL]
  rcases hr : rstripL l with _ | ⟨y, ys⟩
  · exact ⟨[], by simp [h]⟩
  · exact ⟨y :: ys, by simp⟩

theorem stripL_cons_head {c : Char} {l : List Char} (h : isPySpace c = false) :
    ∃ t, stripL (c :: l) = c :: t := by
  obtain ⟨t0, ht0⟩ := rstripL_cons_head (l := l) h
  rw [stripL, ht0]
  exact ⟨t0, dropWhile_of_head_false h⟩

theorem string_mk_ne_empty {l : List Char} (h : l ≠ []) : String.mk l ≠ "" := by
  intro hx
  apply h
  have := congrArg String.data hx
  simpa using this

theorem norm_songToJson (s : Song) : normalizeItem (songToJson s) = some s := by
  rcases s with ⟨t, n⟩
  show normalizeItem (.obj [("title", .str t), ("number", .str n)]) = some ⟨t, n⟩
  have hget1 : pyGet [("title", .str t), ("number", .str n)] ("title") = .str t := rfl
  have hget2 : pyGet [("title", .str t), ("number", .str n)] ("number") = .str n := rfl
  have hget3 : pyGet [("title", .str t), ("number", .str n)] ("name") = .null := rfl
  have hget4 : pyGet [("title", .str t), ("number", .str n)] ("num") = .null := rfl
  rw [normalizeItem, hget1, hget2, hget3, hget4]
  by_cases ht : t = "" <;> by_cases hn : n = "" <;>
    simp [pyOr, truthy, pyStr, ht, hn]

theorem load_map_songToJson (songs : List Song) :
    (songs.map songToJson).filterMap normalizeItem = songs := by
  induction songs with
  | nil => rfl
  | cons s rest ih =>
    rw [List.map_cons, List.filterMap_cons, norm_songToJson, ih]

theorem containsSub_empty_needle (l : List Char) : containsSub [] l = true := by
  cases l <;> rfl

theorem containsS_empty_needle (hay : String) : containsS hay "" = true :=
  containsSub_empty_needle hay.data

theorem containsSub_eq_isSome (sep : List Char) (hsep : sep ≠ []) :
    ∀ l, containsSub sep l = (splitOnceL sep l).isSome := by
  intro l
  induction l with
  | nil =>
    obtain ⟨a, as, ha⟩ := List.exists_cons_of_ne_nil hsep
    subst ha
    rfl
  | cons c rest ih =>
    rw [containsSub, splitOnceL]
    by_cases hs : startsWithL sep (c :: rest) = true
    · simp [hs]
    · simp only [Bool.not_eq_true] at hs
      simp [hs, ih, Option.isSome_map]

theorem pyStr_orChain (a b : Json) :
    pyStr (pyOr a (pyOr b (.str ""))) = truthyFallback a b := by
  rw [pyOr, pyOr, truthyFallback]
  by_cases ha : truthy a = true
  · rw [if_pos ha, if_pos ha]
  · rw [if_neg ha, if_neg ha]
    by_cases hb : truthy b = true
    · rw [if_pos hb, if_pos hb]
    · rw [if_neg hb, if_neg hb]
      rfl

theorem norm_eq_specNormC2 (j : Json) : normalizeItem j = specNormC2 j := by
  cases j with
  | obj fields => rw [normalizeItem, specNormC2, pyStr_orChain, pyStr_orChain]
  | null => rfl
  | bool b => rfl
  | num n => rfl
  | str s => rfl
  | arr items => rfl

theorem filterMap_norm_filter (items : List Json) :
    items.filterMap normalizeItem = (items.filter jsonRecognized).map forceNorm := by
  induction items with
  | nil => rfl
  | cons j rest ih =>
    cases j <;>
      simp [List.filterMap_cons, List.filter_cons, jsonRecognized, normalizeItem,
        forceNorm, ih]

/-- C1: for every catalog of `\x7btitle, number\x7d` records (which is exactly what
`save_songs` serializes, so no legacy-field normalization applies), saving
and then loading returns a structurally equal catalog in the same order. -/
theorem c1_save_then_load_round_trip (songs : List Song) (fs : FileState) :
    load_songs (save_songs false songs fs).1 =
      ⟨songs, .stored (.arr (songs.map songToJson)), []⟩ := by
  show load_songs (.stored (.arr (songs.map songToJson))) = _
  rw [load_songs]
  show LoadResult.mk (load_songs_data (.arr (songs.map songToJson))) _ _ = _
  rw [load_songs_data, load_map_songToJson]

/-- C2 (amended): `load` on a stored JSON value normalizes mapping entries
with the Python or-chain — the `name`/`num` fallback fires whenever the
primary field is absent *or falsy* (null, false, zero, empty string or
empty container), the chosen value being coerced by `str` and the default
being `""`; plain strings become titles with empty numbers; unrecognized
entries are dropped; a non-list top level yields an empty catalog. -/
theorem c2_load_normalization_truthy_fallback (j : Json) :
    (load_songs (.stored j)).songs = specLoadC2 j := by
  show load_songs_data j = specLoadC2 j
  cases j with
  | arr items =>
    show items.filterMap normalizeItem = items.filterMap specNormC2
    rw [funext norm_eq_specNormC2]
  | null => rfl
  | bool b => rfl
  | num n => rfl
  | str s => rfl
  | obj fields => rfl

/-- C2 counterexample: on the entry `\x7b"title": "", "name": "X"\x7d` the code
falls back to `name` and loads the title `"X"`, while the claim reading in
which a present `title` field is always used yields `""`. -/
theorem c2_presence_reading_counterexample :
    load_songs_data (.arr [.obj [("title", .str ""), ("name", .str "X")]]) =
        [⟨"X", ""⟩] ∧
      origLoadC2 (.arr [.obj [("title", .str ""), ("name", .str "X")]]) =
        [⟨"", ""⟩] ∧
      (Song.mk "X" "" ≠ Song.mk "" "") := by
  refine ⟨rfl, rfl, by decide⟩

/-- C7: loading a missing backing file creates the file containing the
serialization of the empty list and returns an empty catalog. -/
theorem c7_missing_file_creates_empty_list :
    load_songs .absent = ⟨[], .stored (.arr []), []⟩ := rfl

/-- C8: `load` on an unreadable or unparsable file reports the failure and
returns an empty catalog instead of raising (the embedding is total), and
`save` on an I/O failure reports the error and returns with the file state
and the caller's catalog untouched. -/
theorem c8_load_save_failures_nonfatal :
    load_songs .unreadable = ⟨[], .unreadable, ["Failed to load songs.json"]⟩ ∧
      ∀ (songs : List Song) (fs : FileState),
        save_songs true songs fs = (fs, ["Failed to save songs.json"]) :=
  ⟨rfl, fun _ _ => rfl⟩

/-- C10: on a stored JSON list, `load` keeps exactly the mapping and string
entries, in their original relative order, and every returned record
serializes to a mapping with exactly the string fields `title` and
`number`. -/
theorem c10_load_keeps_recognized_entries (items : List Json) :
    load_songs_data (.arr items) = (items.filter jsonRecognized).map forceNorm ∧
      ∀ s, s ∈ load_songs_data (.arr items) →
        ∃ t n, songToJson s = .obj [("title", .str t), ("number", .str n)] := by
  constructor
  · show items.filterMap normalizeItem = _
    exact filterMap_norm_filter items
  · intro s _
    exact ⟨s.title, s.number, rfl⟩

/-- C10 witness: the mixed list `["Rock of Ages", 7]` keeps only the string
entry, and its record serializes to a two-field mapping. -/
theorem c10_load_keeps_recognized_entries_witness :
    load_songs_data (.arr [.str "Rock of Ages", .num 7]) =
        (([.str "Rock of Ages", .num 7] : List Json).filter jsonRecognized).map forceNorm ∧
      ∃ t n, songToJson ⟨"Rock of Ages", ""⟩ =
        .obj [("title", .str t), ("number", .str n)] := by
  obtain ⟨h1, h2⟩ := c10_load_keeps_recognized_entries [.str "Rock of Ages", .num 7]
  exact ⟨h1, h2 ⟨"Rock of Ages", ""⟩ (by decide)⟩

/-- C4 (amended): the filtered view equals the subsequence of the catalog
whose lowercased title or number contains the *lowercased and
whitespace-trimmed* query; in particular a query whose trimmed form is
empty gives back the full catalog. -/
theorem c4_search_filters_by_trimmed_query :
    (∀ (q : String) (songs : List Song),
        computeFiltered q songs = specFilterC4 q songs) ∧
      ∀ (q : String) (songs : List Song),
        pyStripS (lowerS q) = "" → computeFiltered q songs = songs := by
  have key : ∀ (q : String) (songs : List Song),
      computeFiltered q songs = specFilterC4 q songs := by
    intro q songs
    rw [computeFiltered, specFilterC4]
    by_cases h : pyStripS (lowerS q) = ""
    · simp [h, containsS_empty_needle]
    · simp [h]
  refine ⟨key, ?_⟩
  intro q songs h
  rw [computeFiltered]
  simp [h]

/-- C4 witness: search with the untrimmed query `" 12"` still matches the
record numbered `12`, and the empty query returns the catalog. -/
theorem c4_search_filters_by_trimmed_query_witness :
    computeFiltered " 12" [⟨"Amazing Grace", "12"⟩] =
        specFilterC4 " 12" [⟨"Amazing Grace", "12"⟩] ∧
      computeFiltered "" [⟨"Amazing Grace", "12"⟩] = [⟨"Amazing Grace", "12"⟩] := by
  obtain ⟨key, hempty⟩ := c4_search_filters_by_trimmed_query
  exact ⟨key (" 12") [⟨"Amazing Grace", "12"⟩],
    hempty ("") [⟨"Amazing Grace", "12"⟩] (by decide)⟩

/-- C4 counterexample: the query `" 12"` (with a leading space) matches
`\x7b"Amazing Grace", "12"\x7d` in the code because the query is trimmed first,
while the claim-literal filter, which matches the raw query as a substring,
returns nothing. -/
theorem c4_untrimmed_query_counterexample :
    computeFiltered " 12" [⟨"Amazing Grace", "12"⟩] = [⟨"Amazing Grace", "12"⟩] ∧
      origFilterC4 " 12" [⟨"Amazing Grace", "12"⟩] = [] ∧
      ([⟨"Amazing Grace", "12"⟩] : List Song) ≠ [] := by
  refine ⟨by decide, by decide, by decide⟩

theorem formatCliLine_eq_spec (i : Nat) (s : Song) :
    formatCliLine i s = specFormatC9 i s := by
  rw [formatCliLine, specFormatC9]
  by_cases h : s.number = ""
  · rw [if_pos h]
    simp [h]
  · rw [if_neg h]
    have hbne : (s.number != "") = true := by simpa using h
    rw [hbne]
    simp only [if_true, String.append_assoc]
    rw [← String.append_assoc (" ") ("- ") s.number]
    rfl

/-- C9 (amended): `--list` prints exactly one line per record in catalog
order; a record with a nonempty number prints as `index: title - number`,
and one with an empty number prints as `index: title ` — with a trailing
space, because the f-string always emits the separator space before the
optional `- number` segment. -/
theorem c9_cli_list_line_format (songs : List Song) :
    run_cli false ["--list"] (.stored (.arr (songs.map songToJson))) =
      ⟨songs, .stored (.arr (songs.map songToJson)),
        songs.enum.map (fun p => specFormatC9 p.1 p.2), []⟩ := by
  rw [run_cli]
  simp only [load_songs, load_songs_data, load_map_songToJson]
  simp [funext (fun p : Nat × Song => formatCliLine_eq_spec p.1 p.2)]

/-- C9 counterexample: on the catalog `[⟨"A", ""⟩]` the code prints the line
`"0: A "`, not the claimed `"0: A"` without trailing space. -/
theorem c9_trailing_space_counterexample :
    (run_cli false ["--list"]
        (.stored (.arr [.obj [("title", .str "A"), ("number", .str "")]]))).printed =
      ["0: A "] ∧ ("0: A " : String) ≠ "0: A" := by
  refine ⟨rfl, by decide⟩

/-- C6: for every catalog and remove argument, `--remove` behaves exactly
as the claim describes: a parsed in-range index removes that record,
persists the shortened catalog and prints the removed title; a parse
failure or out-of-range index prints a message and leaves the catalog and
the backing file unchanged. -/
theorem c6_cli_remove_contract (arg : String) (songs : List Song) :
    run_cli false ["--remove", arg] (.stored (.arr (songs.map songToJson))) =
      specRemoveC6 arg songs := by
  rw [run_cli, specRemoveC6]
  simp only [load_songs, load_songs_data, load_map_songToJson]
  rcases hp : pyParseInt arg with _ | idx
  · simp [hp]
  · by_cases hcond : 0 ≤ idx ∧ idx < (songs.length : Int)
    · simp [hp, hcond, save_songs]
    · simp [hp, hcond]

theorem specLineC5_eq (line : List Char) : parseImportLine line = specLineC5 line := by
  rcases hl : stripL line with _ | ⟨c, t⟩
  · simp [parseImportLine, specLineC5, hl]
  · rcases hsplit : splitOnceL [' ', '-', ' '] (c :: t) with _ | ⟨a, b⟩
    · have hc : containsSub [' ', '-', ' '] (c :: t) = false := by
        rw [containsSub_eq_isSome _ (by decide), hsplit]
        rfl
      simp [parseImportLine, specLineC5, hl, hsplit, hc]
    · have hc : containsSub [' ', '-', ' '] (c :: t) = true := by
        rw [containsSub_eq_isSome _ (by decide), hsplit]
        rfl
      simp [parseImportLine, specLineC5, hl, hsplit, hc]

theorem parseImport_eq_spec (text : String) : parseImport text = specImportC5 text := by
  rw [parseImport, specImportC5, funext specLineC5_eq]

theorem startsWith_sep_false {c : Char} {t : List Char} (hc : isPySpace c = false) :
    startsWithL [' ', '-', ' '] (c :: t) = false := by
  have hne : (' ' == c) = false := by
    by_cases hx : c = ' '
    · subst hx
      exact absurd hc (by decide)
    · exact beq_eq_false_iff_ne.mpr (fun h => hx h.symm)
  show (' ' == c && startsWithL ['-', ' '] t) = false
  rw [hne, Bool.false_and]

theorem parseImportLine_title {line : List Char} {s : Song}
    (h : parseImportLine line = some s) : pyStripS s.title ≠ "" := by
  rcases hl : stripL line with _ | ⟨c, t⟩
  · rw [parseImportLine, hl] at h
    simp at h
  · have hc : isPySpace c = false := stripL_head hl
    rw [parseImportLine, hl] at h
    rcases hsplit : splitOnceL [' ', '-', ' '] (c :: t) with _ | ⟨a, b⟩
    · simp only [hsplit] at h
      simp at h
      rw [← h]
      show String.mk (stripL (c :: t)) ≠ ""
      rw [← hl, stripL_idem, hl]
      exact string_mk_ne_empty (by simp)
    · simp only [hsplit] at h
      simp at h
      have hstart := startsWith_sep_false (t := t) hc
      rw [splitOnceL, if_neg (by simp [hstart])] at hsplit
      rw [Option.map_eq_some'] at hsplit
      obtain ⟨p0, _, hfp⟩ := hsplit
      have ha : a = c :: p0.1 := by
        have := congrArg Prod.fst hfp
        simpa using this.symm
      obtain ⟨t1, ht1⟩ := stripL_cons_head (l := p0.1) hc
      rw [← h]
      show String.mk (stripL (stripL a)) ≠ ""
      rw [stripL_idem, ha, ht1]
      exact string_mk_ne_empty (by simp)

/-- C5 (amended): for a nonempty import text, each non-blank line whose
*trimmed form* contains `" - "` is split at the first occurrence in that
trimmed form into trimmed title and number, every other non-blank line
becomes a title with empty number, blank lines are skipped, the records are
appended in line order, persisted, and the imported count is reported (an
empty or cancelled dialog is a no-op with no report). -/
theorem c5_import_appends_parsed_lines (text : String) (st : AppState)
    (h : text ≠ "") :
    onImport false (some text) st =
      ⟨⟨st.songs ++ specImportC5 text,
        computeFiltered st.query (st.songs ++ specImportC5 text), st.query,
        .stored (.arr ((st.songs ++ specImportC5 text).map songToJson))⟩,
       ["Imported " ++ toString (specImportC5 text).length ++ " songs"]⟩ := by
  rw [onImport]
  simp [h, parseImport_eq_spec, save_songs]

/-- C5 witness: importing the two-line text of the spec example appends the
two parsed records and reports the count. -/
theorem c5_import_appends_parsed_lines_witness :
    ("Holy Holy Holy - 100\nJust As I Am" : String) ≠ "" ∧
      onImport false (some ("Holy Holy Holy - 100\nJust As I Am"))
          ⟨[], [], "", .stored (.arr [])⟩ =
        ⟨⟨[] ++ specImportC5 ("Holy Holy Holy - 100\nJust As I Am"),
          computeFiltered "" ([] ++ specImportC5 ("Holy Holy Holy - 100\nJust As I Am")),
          "",
          .stored (.arr (([] ++ specImportC5 ("Holy Holy Holy - 100\nJust As I Am")).map songToJson))⟩,
         ["Imported " ++
            toString (specImportC5 ("Holy Holy Holy - 100\nJust As I Am")).length ++
            " songs"]⟩ :=
  ⟨by decide, c5_import_appends_parsed_lines _ _ (by decide)⟩

/-- C5 counterexample: the line `"a - "` contains the separator `" - "`,
but the code strips the line first, after which no separator remains, so
the whole stripped line `"a -"` becomes the title — while the claim-literal
parse splits it into title `"a"` and empty number.  Also, the empty import
text produces no report at all, against the claimed unconditional count
report. -/
theorem c5_raw_line_counterexample :
    parseImportLine (("a - ").data) = some ⟨"a -", ""⟩ ∧
      origLineC5 (("a - ").data) = some ⟨"a", ""⟩ ∧
      (Song.mk "a -" "" ≠ Song.mk "a" "") ∧
      onImport false (some ("")) ⟨[], [], "", .stored (.arr [])⟩ =
        ⟨⟨[], [], "", .stored (.arr [])⟩, []⟩ := by
  refine ⟨by decide, by decide, by decide, rfl⟩

/-- C3 (amended): the GUI entry form never produces a record with an empty
trimmed title (and a rejected or cancelled form mutates and saves nothing),
and import lines never produce one either; but the batch `--add` command
performs no validation: it appends its title argument verbatim — including
an empty or whitespace-only one — and persists the catalog. -/
theorem c3_title_validation :
    (∀ (tIn nIn : String) (s : Song),
        applyDialog tIn nIn = some s → pyStripS s.title ≠ "") ∧
      (∀ (ioFail : Bool) (st : AppState), onAdd ioFail none st = ⟨st, []⟩) ∧
      (∀ (text : String) (s : Song),
        s ∈ parseImport text → pyStripS s.title ≠ "") ∧
      (∀ (title : String) (j : Json),
        run_cli false ["--add", title] (.stored j) =
          ⟨load_songs_data j ++ [Song.mk title ("")],
           .stored (.arr ((load_songs_data j ++ [Song.mk title ("")]).map songToJson)),
           ["Added: " ++ title], []⟩) := by
  refine ⟨?_, ?_, ?_, ?_⟩
  · intro tIn nIn s h
    rw [applyDialog] at h
    by_cases ht : pyStripS tIn = ""
    · simp [ht] at h
    · simp [ht] at h
      rw [← h]
      show pyStripS (pyStripS tIn) ≠ ""
      rw [pyStripS_idem]
      exact ht
  · intro ioF st
    rfl
  · intro text s hmem
    rw [parseImport, List.mem_filterMap] at hmem
    obtain ⟨line, _, hline⟩ := hmem
    exact parseImportLine_title hline
  · intro title j
    rw [run_cli]
    simp [load_songs, save_songs]

/-- C3 witness: a confirmed dialog and an import line both yield records
with nonempty trimmed titles. -/
theorem c3_title_validation_witness :
    pyStripS ("Amazing Grace") ≠ "" ∧ pyStripS ("Just As I Am") ≠ "" := by
  obtain ⟨h1, _, h3, _⟩ := c3_title_validation
  constructor
  · exact h1 ("Amazing Grace") ("12") ⟨"Amazing Grace", "12"⟩ (by decide)
  · exact h3 ("Just As I Am") ⟨"Just As I Am", ""⟩ (by decide)

/-- C3 counterexample: `--add ""` appends and persists a record whose title
is empty after trimming, so the batch add path violates the claimed
invariant. -/
theorem c3_cli_add_counterexample :
    run_cli false ["--add", ""] (.stored (.arr [])) =
        ⟨[⟨"", ""⟩], .stored (.arr [.obj [("title", .str ""), ("number", .str "")]]),
          ["Added: "], []⟩ ∧
      pyStripS ("") = "" :=
  ⟨rfl, rfl⟩
